import Mathlib

/-!
Verification of the TrenchBroom map editor document core against its
specification.  The development shallowly embeds the parts of the program the
claims refer to: the command processor with rollback on failure, map format
auto-detection in the world reader, selection of nodes by source file position
with open-group scoping, flattening of brush selections, entity default
property application, the linked-group update check, and the texture
collection manager.

The texture manager functions are translated from
`src/Assets/TextureManager.cpp`.  The remaining operations are implemented
only by headers, tests and callers in this excerpt of the repository; those
are modelled from the specification (each such definition carries a doc
comment starting with `Modelled from the spec:`).
-/

/-! ## Command processor

Modelled from the spec (section 4.5 and section 5): a command is a sequence of
small reversible edits; the processor applies them one by one, recording the
inverse of each applied edit; when a step raises a fault, the already applied
edits are undone in reverse order and the failure surfaces to the caller as a
typed command-processor exception.
-/

/-- Document state observed by commands: the node tree (as a list of node ids)
and the selection (as a list of node ids).  Equality of two states is deep
structural equality. -/
structure DocumentState where
  nodeTree : List Nat
  selection : List Nat
deriving DecidableEq

/-- Modelled from the spec: a single reversible document edit (add a node,
remove the most recently added node, replace the selection). -/
inductive Edit where
  | addNode (n : Nat)
  | removeLastNode
  | setSelection (ns : List Nat)
deriving DecidableEq

/-- Modelled from the spec: applying one edit yields the new document state
together with the inverse edit, recorded from the pre-edit state so that
applying the inverse restores that state exactly.  An edit whose precondition
fails (removing from an empty tree) yields `none`. -/
def applyEdit (s : DocumentState) : Edit → Option (DocumentState × Edit)
  | .addNode n =>
    some ({ s with nodeTree := s.nodeTree ++ [n] }, .removeLastNode)
  | .removeLastNode =>
    match s.nodeTree.getLast? with
    | some x => some ({ s with nodeTree := s.nodeTree.dropLast }, .addNode x)
    | none => none
  | .setSelection ns =>
    some ({ s with selection := ns }, .setSelection s.selection)

/-- A step of a command: perform an edit, or raise a fault mid-mutation (the
test command deliberately throws in the middle of its execution). -/
inductive CommandStep where
  | doEdit (e : Edit)
  | raiseFault (msg : String)
deriving DecidableEq

/-- Failures surfaced by the document API.  The command processor wraps any
fault raised during command execution into `commandProcessorException`; the
`otherException` constructor stands for every other kind of exception. -/
inductive MapException where
  | commandProcessorException (msg : String)
  | otherException (msg : String)
deriving DecidableEq

/-- Outcome of submitting a command: success with the new document state, or a
surfaced failure together with the document state after rollback. -/
inductive ExecOutcome where
  | success (s : DocumentState)
  | failure (err : MapException) (s : DocumentState)
deriving DecidableEq

/-- Modelled from the spec: undo the recorded inverse edits, most recent
first. -/
def rollbackEdits : DocumentState → List Edit → DocumentState
  | s, [] => s
  | s, e :: rest =>
    match applyEdit s e with
    | some (s2, _) => rollbackEdits s2 rest
    | none => rollbackEdits s rest

/-- Modelled from the spec: run the steps of a command, maintaining the stack
of inverse edits; on a fault, roll back and surface a typed
command-processor exception. -/
def execSteps : DocumentState → List Edit → List CommandStep → ExecOutcome
  | s, _, [] => .success s
  | s, undo, .doEdit e :: rest =>
    match applyEdit s e with
    | some (s2, inv) => execSteps s2 (inv :: undo) rest
    | none =>
      .failure (.commandProcessorException "edit failed") (rollbackEdits s undo)
  | s, undo, .raiseFault msg :: _ =>
    .failure (.commandProcessorException msg) (rollbackEdits s undo)

/-- Modelled from the spec: submit a command (a list of steps) to the command
processor in the idle state. -/
def executeCommand (s : DocumentState) (cmd : List CommandStep) : ExecOutcome :=
  execSteps s [] cmd

/-- The command of the test `MapDocumentTest.throwExceptionDuringCommand`:
it mutates the document and then deliberately throws. -/
def throwExceptionDuringCommand : List CommandStep :=
  [.doEdit (.addNode 1), .doEdit (.setSelection [1]),
   .raiseFault "command threw during execution"]

/-! ## World reader and map format detection

Modelled from the spec (section 4.1) and the declaration in
`src/common/src/io/WorldReader.h`: `tryRead` parses the input as each of the
given map formats in order, returns the world of the first format that parses
the whole input without format-conflict errors, and, when every format fails,
throws a `WorldReaderException` aggregating the per-format parse errors.
-/

/-- Map formats, as in `mdl::MapFormat`. -/
inductive MapFormat where
  | Unknown
  | Standard
  | Valve
  | Quake2
  | Quake3
deriving DecidableEq

/-- Brush face syntaxes that can occur in an input; the excerpt exercises the
Standard and Valve face grammars. -/
inductive BrushFaceKind where
  | standardFace
  | valveFace
deriving DecidableEq

/-- The format a brush face syntactically belongs to. -/
def faceFormat : BrushFaceKind → MapFormat
  | .standardFace => .Standard
  | .valveFace => .Valve

/-- Printable name of a map format, used in parse error messages. -/
def formatName : MapFormat → String
  | .Unknown => "Unknown"
  | .Standard => "Standard"
  | .Valve => "Valve"
  | .Quake2 => "Quake2"
  | .Quake3 => "Quake3"

/-- Modelled from the spec: parsing the input as a fixed source-and-target
format succeeds iff every brush face uses that format; the first brush face
whose syntax belongs to a different format is a format conflict and raises a
parse error naming both formats.  The input is abstracted to the sequence of
brush faces it contains; an empty input (no geometry) parses under any
format. -/
def parseWithFormat (fmt : MapFormat) : List BrushFaceKind → Except String Unit
  | [] => .ok ()
  | face :: rest =>
    if faceFormat face = fmt then
      parseWithFormat fmt rest
    else
      .error ("Expected " ++ formatName fmt ++ " face, but got "
        ++ formatName (faceFormat face) ++ " face")

/-- Errors raised by the reading layer: a plain parse error of one parser, or
the aggregated `WorldReaderException` declared in `io/WorldReader.h`, which
carries one (format, message) entry per attempted format. -/
inductive ReaderError where
  | parseException (fmt : MapFormat) (msg : String)
  | worldReaderException (errors : List (MapFormat × String))
deriving DecidableEq

/-- Modelled from the spec: try the formats in order, accumulating the parse
errors of the failed attempts. -/
def tryReadGo (input : List BrushFaceKind) :
    List MapFormat → List (MapFormat × String) → Except ReaderError MapFormat
  | [], acc => .error (.worldReaderException acc)
  | fmt :: rest, acc =>
    match parseWithFormat fmt input with
    | .ok _ => .ok fmt
    | .error msg => tryReadGo input rest (acc ++ [(fmt, msg)])

/-- Modelled from the spec: `WorldReader::tryRead` parses the input as each of
the given formats in order and returns the first format that accepts the
whole input; if all formats fail it throws a `WorldReaderException`
aggregating the parse errors of every attempted format. -/
def tryRead (input : List BrushFaceKind) (mapFormatsToTry : List MapFormat) :
    Except ReaderError MapFormat :=
  tryReadGo input mapFormatsToTry []

/-- The candidate format list of the Quake game configuration: Valve is listed
before Standard. -/
def quakeFormatsToTry : List MapFormat := [.Valve, .Standard]

/-! ## Node hierarchy

A forest of map nodes.  Each node carries its id, its kind, its recorded
source file position (start line and line span), its children and its right
siblings.  This is the node tree the selection operations walk.
-/

/-- Node kinds of the map node hierarchy. -/
inductive NodeKind where
  | world
  | layer
  | group
  | entity
  | brush
  | patch
deriving DecidableEq

/-- A forest of map nodes: empty, or a node (id, kind, file position,
children) followed by its right siblings. -/
inductive Forest where
  | nil : Forest
  | cons (nid : Nat) (kind : NodeKind) (startLine lineSpan : Nat)
      (children : Forest) (rest : Forest) : Forest
deriving DecidableEq

/-- A node covers a line iff the line lies in `[startLine, startLine +
lineSpan)`. -/
def containsLine (startLine lineSpan line : Nat) : Bool :=
  decide (startLine ≤ line) && decide (line < startLine + lineSpan)

/-- A node has a queried file position iff its span covers one of the queried
lines. -/
def coversQueriedLine (startLine lineSpan : Nat) (lines : List Nat) : Bool :=
  lines.any (fun l => containsLine startLine lineSpan l)

/-- Ids of the roots of a forest (the direct children of a node, when applied
to its child forest). -/
def topIds : Forest → List Nat
  | .nil => []
  | .cons nid _ _ _ _ rest => nid :: topIds rest

/-- Modelled from the spec: collect the nodes resolved by the queried lines
within one scope, where every group is closed: world and layer nodes are
traversed transparently; a group whose span covers a queried line resolves to
the group itself, never to a descendant; a brush or patch is selected when
its own span covers a queried line; a point entity likewise; for a brush
entity whose span covers a queried line, the children whose own spans cover a
queried line are selected, or all of its children when no child span covers
any queried line. -/
def collectNodesWithLines (lines : List Nat) : Forest → List Nat
  | .nil => []
  | .cons nid kind startLine lineSpan ch rest =>
    (match kind with
      | .world => collectNodesWithLines lines ch
      | .layer => collectNodesWithLines lines ch
      | .group =>
        if coversQueriedLine startLine lineSpan lines then [nid] else []
      | .entity =>
        if ch = .nil then
          if coversQueriedLine startLine lineSpan lines then [nid] else []
        else if coversQueriedLine startLine lineSpan lines then
          match collectNodesWithLines lines ch with
          | [] => topIds ch
          | hits => hits
        else []
      | .brush =>
        if coversQueriedLine startLine lineSpan lines then [nid] else []
      | .patch =>
        if coversQueriedLine startLine lineSpan lines then [nid] else [])
    ++ collectNodesWithLines lines rest

/-- Child forest of the group with the given id, if present. -/
def findGroupChildren (gid : Nat) : Forest → Option Forest
  | .nil => none
  | .cons nid kind _ _ ch rest =>
    if nid = gid ∧ kind = .group then some ch
    else
      match findGroupChildren gid ch with
      | some r => some r
      | none => findGroupChildren gid rest

/-- Modelled from the spec: selection by source location.  `openStack` is the
stack of currently open groups, innermost last.  Only nodes inside the
innermost open scope are selectable: the scope itself is excluded, its
interior nodes become individually selectable, and a closed group inside the
scope still resolves every covered line to the closed group itself, never to
a descendant. -/
def selectNodesWithFilePosition (lines : List Nat) (openStack : List Nat)
    (f : Forest) : List Nat :=
  match openStack.getLast? with
  | none => collectNodesWithLines lines f
  | some gid =>
    match findGroupChildren gid f with
    | some ch => collectNodesWithLines lines ch
    | none => []

/-! ## Brush selection flattening -/

/-- Ids of all brush nodes in a forest, in traversal order. -/
def brushIds : Forest → List Nat
  | .nil => []
  | .cons nid kind _ _ ch rest =>
    (if kind = .brush then [nid] else []) ++ brushIds ch ++ brushIds rest

/-- Modelled from the spec: for every node of the forest whose id is in the
selection, emit the node itself when it is a brush together with all brush
descendants of the node; the traversal also descends into selected nodes, so
overlapping selections may emit a brush more than once before
deduplication. -/
def selectedBrushHits (sel : List Nat) : Forest → List Nat
  | .nil => []
  | .cons nid kind _ _ ch rest =>
    (if sel.contains nid then (if kind = .brush then [nid] else []) ++ brushIds ch
     else [])
      ++ selectedBrushHits sel ch ++ selectedBrushHits sel rest

/-- Modelled from the spec: `allSelectedBrushNodes` returns every currently
selected brush node plus all brush descendants of every selected container,
never duplicating a node. -/
def allSelectedBrushNodes (sel : List Nat) (f : Forest) : List Nat :=
  (selectedBrushHits sel f).dedup

/-- Modelled from the spec: `hasAnySelectedBrushNodes` is true iff the
flattened brush selection is non-empty. -/
def hasAnySelectedBrushNodes (sel : List Nat) (f : Forest) : Bool :=
  !(selectedBrushHits sel f).isEmpty

/-- Reference characterization, following the wording of the spec: collect the
brush nodes that are reachable from the selection, walking the forest with a
flag telling whether some ancestor-or-self is selected. -/
def reachableBrushes (sel : List Nat) (anc : Bool) : Forest → List Nat
  | .nil => []
  | .cons nid kind _ _ ch rest =>
    (if anc || sel.contains nid then (if kind = .brush then [nid] else []) else [])
      ++ reachableBrushes sel (anc || sel.contains nid) ch
      ++ reachableBrushes sel anc rest

/-! ## Test fixtures

The node trees of the tests `MapDocumentTest` "Brush Node Selection" and
"selectByLineNumber", with nodes identified by numeric ids.
-/

/-- The tree of the "Brush Node Selection" test.  Ids: world 0, default layer
1, custom layer 2, brushNodeInDefaultLayer 3, brushEntityNode 4,
pointEntityNode 5, outerGroupNode 6, innerGroupNode 7, brushNodeInCustomLayer
8, brushNodeInGroup 9, brushNodeInEntity 10, brushNodeInNestedGroup 11. -/
def brushSelectionFixture : Forest :=
  .cons 0 .world 0 0
    (.cons 1 .layer 0 0
      (.cons 3 .brush 0 0 .nil
        (.cons 4 .entity 0 0 (.cons 10 .brush 0 0 .nil .nil)
          (.cons 5 .entity 0 0 .nil
            (.cons 6 .group 0 0
              (.cons 7 .group 0 0 (.cons 11 .brush 0 0 .nil .nil)
                (.cons 9 .brush 0 0 .nil .nil))
              .nil))))
      (.cons 2 .layer 0 0 (.cons 8 .brush 0 0 .nil .nil) .nil))
    .nil

/-- The tree of the "selectByLineNumber" test, with the file positions set by
the test.  Ids: default layer 0, brush 1, pointEntity 2, patch 3, brushEntity
4, brushInEntity1 5, brushInEntity2 6, outerGroup 7, brushInOuterGroup 8,
innerGroup 9, brushInInnerGroup 10. -/
def selectByLineFixture : Forest :=
  .cons 0 .layer 0 0
    (.cons 1 .brush 4 2 .nil
      (.cons 2 .entity 10 5 .nil
        (.cons 3 .patch 16 4 .nil
          (.cons 4 .entity 20 10
            (.cons 5 .brush 23 2 .nil (.cons 6 .brush 26 3 .nil .nil))
            (.cons 7 .group 31 19
              (.cons 8 .brush 32 6 .nil
                (.cons 9 .group 39 10 (.cons 10 .brush 43 5 .nil .nil) .nil))
              .nil)))))
    .nil

/-! ## Entity default properties

Modelled from the spec (section 4.5): `setDefaultProperties(mode)` applies to
every selected entity node with a definition the default property values
declared by the definition.  An entity is represented by its property list;
the relevant part of its definition is the list of declared default
properties (key, default value).
-/

/-- Modes of `mdl::SetDefaultPropertyMode`. -/
inductive SetDefaultPropertyMode where
  | SetExisting
  | SetMissing
  | SetAll
deriving DecidableEq

/-- Lookup of the first value stored under a key in an association list. -/
def lookupKey {A : Type} (k : String) : List (String × A) → Option A
  | [] => none
  | p :: rest => if p.1 == k then some p.2 else lookupKey k rest

/-- An entity has a property iff its property list contains the key. -/
def hasProperty (props : List (String × String)) (k : String) : Bool :=
  props.any (fun p => p.1 == k)

/-- The mode overwrites declared-default keys the entity already has. -/
def overwritesExisting : SetDefaultPropertyMode → Bool
  | .SetExisting => true
  | .SetMissing => false
  | .SetAll => true

/-- The mode adds declared-default keys the entity does not yet have. -/
def addsMissing : SetDefaultPropertyMode → Bool
  | .SetExisting => false
  | .SetMissing => true
  | .SetAll => true

/-- Rewrite one existing property: when its key is declared as a default and
the mode overwrites existing keys, replace the value by the default value;
otherwise keep the property unchanged. -/
def applyDefaultToProperty (mode : SetDefaultPropertyMode)
    (defaults : List (String × String)) (p : String × String) :
    String × String :=
  match lookupKey p.1 defaults with
  | some d => if overwritesExisting mode then (p.1, d) else p
  | none => p

/-- Modelled from the spec: `SetExisting` only overwrites declared-default
properties the entity already has; `SetMissing` only adds declared-default
properties the entity does not yet have; `SetAll` does both.  Properties not
declared as defaults are left untouched in every mode. -/
def setDefaultProperties (mode : SetDefaultPropertyMode)
    (defaults props : List (String × String)) : List (String × String) :=
  props.map (applyDefaultToProperty mode defaults)
    ++ (if addsMissing mode then
          defaults.filter (fun d => !hasProperty props d.1)
        else [])

/-! ## Linked groups

Modelled from the spec (section 4.4): each changed node is represented by the
linked-group instance containing it, as a pair of the link-group family id
and an id distinguishing the member instances of the family.
-/

/-- The linked-group instance containing a changed node: the id of its
link-group family and the id of the member instance within that family. -/
structure LinkedGroupRef where
  familyId : Nat
  memberId : Nat
deriving DecidableEq

/-- Two changed nodes require conflicting propagation iff they sit in two
different member instances of the same link-group family. -/
def conflictingMembers (a b : LinkedGroupRef) : Bool :=
  a.familyId == b.familyId && !(a.memberId == b.memberId)

/-- Modelled from the spec: `canUpdateLinkedGroups(changedNodes)` holds only
if no two changed nodes would require conflicting propagation. -/
def canUpdateLinkedGroups : List LinkedGroupRef → Bool
  | [] => true
  | a :: rest =>
    rest.all (fun b => !conflictingMembers a b) && canUpdateLinkedGroups rest

/-! ## Texture manager

Translated from `src/Assets/TextureManager.cpp`.  A `TextureCollection` is
identified by the identity of the heap object (`cid`) and carries its name;
the manager state holds the external collection list and the by-name map
(an association list).  Loading a collection is abstracted by a `load`
function returning `none` when `Game::loadTextureCollection` throws.
-/

/-- A texture collection: object identity and name. -/
structure TextureCollection where
  cid : Nat
  name : String
deriving DecidableEq

/-- The external-collection state of `TextureManager`. -/
structure TextureManagerState where
  externalCollections : List TextureCollection
  externalCollectionsByName : List (String × TextureCollection)
deriving DecidableEq

/-- `VectorUtils::indexOf`: index of the first occurrence of the collection
(compared by object identity) in the list, or the length when absent. -/
def indexOfCollection (l : List TextureCollection) (c : TextureCollection) :
    Nat :=
  l.findIdx (fun x => x.cid == c.cid)

/-- `std::swap` of two positions of the collection list. -/
def swapNeighbors (l : List TextureCollection) (i j : Nat) :
    List TextureCollection :=
  match l[i]?, l[j]? with
  | some a, some b => (l.set i b).set j a
  | _, _ => l

/-- `TextureManager::moveExternalTextureCollectionUp`: fails with a named
`AssetException` when the name is unknown or the collection is first;
otherwise swaps the collection with its left neighbor. -/
def moveExternalTextureCollectionUp (s : TextureManagerState)
    (name : String) : Except String TextureManagerState :=
  match lookupKey name s.externalCollectionsByName with
  | none => .error ("Unknown external texture collection: " ++ name)
  | some collection =>
    let index := indexOfCollection s.externalCollections collection
    if index = 0 then .error "Could not move texture collection"
    else
      .ok { s with externalCollections :=
              swapNeighbors s.externalCollections (index - 1) index }

/-- `TextureManager::moveExternalTextureCollectionDown`: fails with a named
`AssetException` when the name is unknown or the collection is last;
otherwise swaps the collection with its right neighbor. -/
def moveExternalTextureCollectionDown (s : TextureManagerState)
    (name : String) : Except String TextureManagerState :=
  match lookupKey name s.externalCollectionsByName with
  | none => .error ("Unknown external texture collection: " ++ name)
  | some collection =>
    let index := indexOfCollection s.externalCollections collection
    if index = s.externalCollections.length - 1 then
      .error "Could not move texture collection"
    else
      .ok { s with externalCollections :=
              swapNeighbors s.externalCollections (index + 1) index }

/-- `TextureManager::doAddTextureCollection`: when the name is not yet in the
by-name map, load the collection (an error propagates the load failure) and
append it to the list and the map; when the name is present, do nothing. -/
def doAddTextureCollection (load : String → Option TextureCollection)
    (name : String) (collections : List TextureCollection)
    (collectionsByName : List (String × TextureCollection)) :
    Except Unit (List TextureCollection × List (String × TextureCollection)) :=
  if (lookupKey name collectionsByName).isNone then
    match load name with
    | none => .error ()
    | some c => .ok (collections ++ [c], collectionsByName ++ [(name, c)])
  else .ok (collections, collectionsByName)

/-- `operator[]` of the by-name map: replace the value under an existing key,
or append a new entry. -/
def mapInsert (m : List (String × TextureCollection)) (k : String)
    (v : TextureCollection) : List (String × TextureCollection) :=
  if (lookupKey k m).isSome then
    m.map (fun p => if p.1 == k then (k, v) else p)
  else m ++ [(k, v)]

/-- `TextureManager::addExternalTextureCollection`: on success, commit the
result of `doAddTextureCollection` and return true; when loading throws,
insert a fresh empty placeholder collection (identified by `dummyId`) under
the requested name into both the list and the by-name map, and return
false. -/
def addExternalTextureCollection (load : String → Option TextureCollection)
    (dummyId : Nat) (s : TextureManagerState) (name : String) :
    Bool × TextureManagerState :=
  match doAddTextureCollection load name s.externalCollections
      s.externalCollectionsByName with
  | .ok (cs, m) =>
    (true, { externalCollections := cs, externalCollectionsByName := m })
  | .error _ =>
    let dummy : TextureCollection := { cid := dummyId, name := name }
    (false,
     { externalCollections := s.externalCollections ++ [dummy],
       externalCollectionsByName :=
         mapInsert s.externalCollectionsByName name dummy })

/-- `TextureManager::externalCollectionNames`: the names of the external
collections, in list order. -/
def externalCollectionNames (s : TextureManagerState) : List String :=
  s.externalCollections.map (fun c => c.name)

/-! ## Supporting lemmas -/

theorem rollbackEdits_applyEdit {s s2 : DocumentState} {e inv : Edit}
    (rest : List Edit) (h : applyEdit s e = some (s2, inv)) :
    rollbackEdits s2 (inv :: rest) = rollbackEdits s rest := by
  cases e with
  | addNode n =>
    simp only [applyEdit, Option.some.injEq, Prod.mk.injEq] at h
    obtain ⟨hs, hi⟩ := h
    subst hs; subst hi
    simp [rollbackEdits, applyEdit, List.getLast?_concat, List.dropLast_concat]
  | removeLastNode =>
    simp only [applyEdit] at h
    cases hl : s.nodeTree.getLast? with
    | none => rw [hl] at h; exact absurd h (by simp)
    | some x =>
      rw [hl] at h
      simp only [Option.some.injEq, Prod.mk.injEq] at h
      obtain ⟨hs, hi⟩ := h
      subst hs; subst hi
      simp [rollbackEdits, applyEdit, List.dropLast_append_getLast? x hl]
  | setSelection ns =>
    simp only [applyEdit, Option.some.injEq, Prod.mk.injEq] at h
    obtain ⟨hs, hi⟩ := h
    subst hs; subst hi
    simp [rollbackEdits, applyEdit]

theorem execSteps_failure {steps : List CommandStep} :
    ∀ {s : DocumentState} {undo : List Edit} {err : MapException}
      {sf : DocumentState},
      execSteps s undo steps = .failure err sf →
      (∃ msg, err = .commandProcessorException msg) ∧
        sf = rollbackEdits s undo := by
  induction steps with
  | nil =>
    intro s undo err sf h
    simp [execSteps] at h
  | cons step rest ih =>
    intro s undo err sf h
    cases step with
    | doEdit e =>
      simp only [execSteps] at h
      cases ha : applyEdit s e with
      | none =>
        rw [ha] at h
        simp only [ExecOutcome.failure.injEq] at h
        exact ⟨⟨"edit failed", h.1.symm⟩, h.2.symm⟩
      | some p =>
        rw [ha] at h
        obtain ⟨hmsg, hsf⟩ := ih h
        refine ⟨hmsg, ?_⟩
        rw [hsf, rollbackEdits_applyEdit undo ha]
    | raiseFault msg =>
      simp only [execSteps, ExecOutcome.failure.injEq] at h
      exact ⟨⟨msg, h.1.symm⟩, h.2.symm⟩

theorem parseWithFormat_valve_error {input : List BrushFaceKind}
    (h : .standardFace ∈ input) :
    parseWithFormat .Valve input =
      .error "Expected Valve face, but got Standard face" := by
  induction input with
  | nil => cases h
  | cons face rest ih =>
    cases face with
    | standardFace =>
      simp only [parseWithFormat, faceFormat]
      rw [if_neg (by decide)]
      rfl
    | valveFace =>
      have hr : BrushFaceKind.standardFace ∈ rest := by
        cases h with
        | tail _ h2 => exact h2
      simp [parseWithFormat, faceFormat, ih hr]

theorem parseWithFormat_standard_error {input : List BrushFaceKind}
    (h : .valveFace ∈ input) :
    parseWithFormat .Standard input =
      .error "Expected Standard face, but got Valve face" := by
  induction input with
  | nil => cases h
  | cons face rest ih =>
    cases face with
    | valveFace =>
      simp only [parseWithFormat, faceFormat]
      rw [if_neg (by decide)]
      rfl
    | standardFace =>
      have hr : BrushFaceKind.valveFace ∈ rest := by
        cases h with
        | tail _ h2 => exact h2
      simp [parseWithFormat, faceFormat, ih hr]

theorem parseWithFormat_all_ok {fmt : MapFormat} {input : List BrushFaceKind}
    (h : ∀ f ∈ input, faceFormat f = fmt) :
    parseWithFormat fmt input = .ok () := by
  induction input with
  | nil => rfl
  | cons face rest ih =>
    have hf : faceFormat face = fmt := h face (List.mem_cons_self face rest)
    simp [parseWithFormat, hf]
    exact ih fun f hm => h f (List.mem_cons_of_mem face hm)

theorem tryReadGo_ok {input : List BrushFaceKind} {fmts : List MapFormat} :
    ∀ {acc : List (MapFormat × String)} {fmt : MapFormat},
      tryReadGo input fmts acc = .ok fmt →
      ∃ pre post, fmts = pre ++ fmt :: post ∧
        (∀ g ∈ pre, parseWithFormat g input ≠ .ok ()) ∧
        parseWithFormat fmt input = .ok () := by
  induction fmts with
  | nil =>
    intro acc fmt h
    simp [tryReadGo] at h
  | cons f rest ih =>
    intro acc fmt h
    simp only [tryReadGo] at h
    cases hp : parseWithFormat f input with
    | ok u =>
      rw [hp] at h
      simp only [Except.ok.injEq] at h
      subst h
      exact ⟨[], rest, rfl, by simp, by cases u; exact hp⟩
    | error msg =>
      rw [hp] at h
      obtain ⟨pre, post, heq, hpre, hok⟩ := ih h
      refine ⟨f :: pre, post, by rw [heq]; rfl, ?_, hok⟩
      intro g hg
      cases hg with
      | head => rw [hp]; simp
      | tail _ hg2 => exact hpre g hg2

theorem reachableBrushes_true (sel : List Nat) :
    ∀ f : Forest, reachableBrushes sel true f = brushIds f := by
  intro f
  induction f with
  | nil => rfl
  | cons nid kind s sp ch rest ihc ihr =>
    simp [reachableBrushes, brushIds, ihc, ihr]

theorem selectedBrushHits_subset_brushIds (sel : List Nat) :
    ∀ f : Forest, ∀ b ∈ selectedBrushHits sel f, b ∈ brushIds f := by
  intro f
  induction f with
  | nil => intro b hb; exact absurd hb (by simp [selectedBrushHits])
  | cons nid kind s sp ch rest ihc ihr =>
    intro b hb
    simp only [selectedBrushHits, List.mem_append] at hb
    simp only [brushIds, List.mem_append]
    rcases hb with (hb | hb) | hb
    · by_cases hsel : sel.contains nid = true
      · rw [if_pos hsel, List.mem_append] at hb
        rcases hb with hb | hb
        · exact Or.inl (Or.inl hb)
        · exact Or.inl (Or.inr hb)
      · rw [if_neg hsel] at hb
        exact absurd hb (List.not_mem_nil b)
    · exact Or.inl (Or.inr (ihc b hb))
    · exact Or.inr (ihr b hb)

theorem mem_selectedBrushHits_iff_reachable (sel : List Nat) :
    ∀ f : Forest, ∀ b : Nat,
      b ∈ selectedBrushHits sel f ↔ b ∈ reachableBrushes sel false f := by
  intro f
  induction f with
  | nil => intro b; simp [selectedBrushHits, reachableBrushes]
  | cons nid kind s sp ch rest ihc ihr =>
    intro b
    have hsub := selectedBrushHits_subset_brushIds sel ch b
    have hc := ihc b
    have hr := ihr b
    simp only [selectedBrushHits, reachableBrushes, Bool.false_or,
      List.mem_append]
    by_cases hsel : sel.contains nid = true
    · rw [if_pos hsel, if_pos hsel, hsel, reachableBrushes_true sel ch,
        List.mem_append]
      tauto
    · have hsel2 : sel.contains nid = false := by
        cases h : sel.contains nid
        · rfl
        · exact absurd h hsel
      rw [if_neg hsel, if_neg hsel, hsel2]
      simp only [List.not_mem_nil, false_or]
      tauto

theorem applyDefaultToProperty_fst (mode : SetDefaultPropertyMode)
    (defaults : List (String × String)) (p : String × String) :
    (applyDefaultToProperty mode defaults p).1 = p.1 := by
  unfold applyDefaultToProperty
  cases lookupKey p.1 defaults with
  | none => rfl
  | some d =>
    by_cases h : overwritesExisting mode = true <;> simp [h]

theorem lookupKey_map_applyDefault (mode : SetDefaultPropertyMode)
    (defaults : List (String × String)) (k : String) :
    ∀ props : List (String × String),
      lookupKey k (props.map (applyDefaultToProperty mode defaults)) =
        (lookupKey k props).map
          (fun v => (applyDefaultToProperty mode defaults (k, v)).2) := by
  intro props
  induction props with
  | nil => rfl
  | cons p rest ih =>
    obtain ⟨k1, v1⟩ := p
    simp only [List.map_cons, lookupKey, applyDefaultToProperty_fst]
    by_cases hk : (k1 == k) = true
    · have hk2 : k1 = k := eq_of_beq hk
      subst hk2
      simp [hk]
    · simp [hk, ih]

theorem hasProperty_iff_lookupKey (k : String) :
    ∀ props : List (String × String),
      hasProperty props k = (lookupKey k props).isSome := by
  intro props
  induction props with
  | nil => rfl
  | cons p rest ih =>
    simp only [hasProperty, List.any_cons, lookupKey] at *
    by_cases hk : (p.1 == k) = true
    · simp [hk]
    · simp [hk, ih]

theorem lookupKey_append {A : Type} (k : String) :
    ∀ l1 l2 : List (String × A),
      lookupKey k (l1 ++ l2) = (lookupKey k l1).or (lookupKey k l2) := by
  intro l1 l2
  induction l1 with
  | nil => rfl
  | cons p rest ih =>
    simp only [List.cons_append, lookupKey]
    by_cases hk : (p.1 == k) = true
    · simp [hk]
    · simp [hk, ih]

theorem lookupKey_filter_none {A : Type} (k : String)
    (q : String × A → Bool) :
    ∀ l : List (String × A), lookupKey k l = none →
      lookupKey k (l.filter q) = none := by
  intro l
  induction l with
  | nil => intro _; rfl
  | cons p rest ih =>
    intro h
    simp only [lookupKey] at h
    by_cases hk : (p.1 == k) = true
    · rw [if_pos hk] at h
      exact absurd h (by simp)
    · rw [if_neg hk] at h
      by_cases hq : q p = true
      · simp only [List.filter_cons, hq, if_true, lookupKey]
        rw [if_neg hk]
        exact ih h
      · simp only [List.filter_cons, hq, if_false]
        exact ih h

theorem lookupKey_filter_not_has (k : String)
    (props : List (String × String)) (hk : hasProperty props k = false) :
    ∀ defaults : List (String × String),
      lookupKey k (defaults.filter (fun d => !hasProperty props d.1)) =
        lookupKey k defaults := by
  intro defaults
  induction defaults with
  | nil => rfl
  | cons d rest ih =>
    by_cases hdk : (d.1 == k) = true
    · have hdk2 : d.1 = k := eq_of_beq hdk
      have hq : (!hasProperty props d.1) = true := by rw [hdk2, hk]; rfl
      simp only [List.filter_cons, hq, if_true, lookupKey, if_pos hdk]
    · by_cases hq : (!hasProperty props d.1) = true
      · simp only [List.filter_cons, hq, if_true, lookupKey, if_neg hdk]
        exact ih
      · simp only [List.filter_cons, hq, if_false, lookupKey, if_neg hdk]
        exact ih

theorem hasProperty_map_applyDefault (mode : SetDefaultPropertyMode)
    (defaults props : List (String × String)) (k : String) :
    hasProperty (props.map (applyDefaultToProperty mode defaults)) k =
      hasProperty props k := by
  simp only [hasProperty, List.any_map, Function.comp_def,
    applyDefaultToProperty_fst]

theorem swapNeighbors_spec (l : List TextureCollection) (i j : Nat)
    (hi : i < l.length) (hj : j < l.length) (hij : i ≠ j) :
    (swapNeighbors l i j).length = l.length ∧
    (swapNeighbors l i j)[i]? = l[j]? ∧
    (swapNeighbors l i j)[j]? = l[i]? ∧
    (∀ m, m ≠ i → m ≠ j → (swapNeighbors l i j)[m]? = l[m]?) := by
  have ha : l[i]? = some l[i] := List.getElem?_eq_getElem hi
  have hb : l[j]? = some l[j] := List.getElem?_eq_getElem hj
  have hsw : swapNeighbors l i j = (l.set i l[j]).set j l[i] := by
    rw [swapNeighbors, ha, hb]
  refine ⟨by simp [hsw], ?_, ?_, ?_⟩
  · rw [hsw, List.getElem?_set_ne (fun h => hij h.symm),
      List.getElem?_set_eq (by simpa using hi), hb]
  · rw [hsw, List.getElem?_set_eq (by simpa using hj), ha]
  · intro m hmi hmj
    rw [hsw, List.getElem?_set_ne (fun h => hmj h.symm),
      List.getElem?_set_ne (fun h => hmi h.symm)]

theorem indexOfCollection_lt_length (l : List TextureCollection)
    (c : TextureCollection) (h : ∃ x ∈ l, x.cid = c.cid) :
    indexOfCollection l c < l.length := by
  obtain ⟨x, hx, hcid⟩ := h
  exact List.findIdx_lt_length_of_exists ⟨x, hx, by simp [hcid]⟩

/-! ## Claim theorems -/

/-- C1: every command whose execution raises a fault mid-mutation leaves the
document state (node tree and selection) identical, by deep comparison, to
the state immediately before the command was submitted, and the failure
surfaces as a typed command-processor exception rather than any other
exception or a partially applied mutation. -/
theorem command_rollback_on_failure (s : DocumentState)
    (cmd : List CommandStep) (err : MapException) (sf : DocumentState)
    (h : executeCommand s cmd = .failure err sf) :
    sf = s ∧ ∃ msg, err = .commandProcessorException msg := by
  obtain ⟨hmsg, hsf⟩ := execSteps_failure h
  exact ⟨by simpa [rollbackEdits] using hsf, hmsg⟩

/-- Witness for C1: the test command that deliberately throws mid-execution
rolls the document back to its submission state and surfaces a
command-processor exception. -/
theorem command_rollback_on_failure_witness :
    executeCommand ⟨[5], [5]⟩ throwExceptionDuringCommand =
      .failure (.commandProcessorException "command threw during execution")
        ⟨[5], [5]⟩
    ∧ ((⟨[5], [5]⟩ : DocumentState) = ⟨[5], [5]⟩
        ∧ ∃ msg, MapException.commandProcessorException
            "command threw during execution"
            = .commandProcessorException msg) :=
  ⟨by decide,
   command_rollback_on_failure ⟨[5], [5]⟩ throwExceptionDuringCommand
     (.commandProcessorException "command threw during execution")
     ⟨[5], [5]⟩ (by decide)⟩

/-- C2: an input mixing Standard and Valve brush syntax, read with an
unspecified target format, fails with a `WorldReaderException` aggregating
the distinct parse errors of every attempted format, never with a plain
parse error. -/
theorem mixed_format_aggregated_error (input : List BrushFaceKind)
    (hstd : .standardFace ∈ input) (hval : .valveFace ∈ input) :
    tryRead input quakeFormatsToTry =
      .error (.worldReaderException
        [(.Valve, "Expected Valve face, but got Standard face"),
         (.Standard, "Expected Standard face, but got Valve face")])
    ∧ ("Expected Valve face, but got Standard face" : String) ≠
        "Expected Standard face, but got Valve face" := by
  refine ⟨?_, by decide⟩
  simp [tryRead, quakeFormatsToTry, tryReadGo,
    parseWithFormat_valve_error hstd, parseWithFormat_standard_error hval]

/-- Witness for C2: an input with one Standard and one Valve brush face. -/
theorem mixed_format_aggregated_error_witness :
    tryRead [.standardFace, .valveFace] quakeFormatsToTry =
      .error (.worldReaderException
        [(.Valve, "Expected Valve face, but got Standard face"),
         (.Standard, "Expected Standard face, but got Valve face")])
    ∧ ("Expected Valve face, but got Standard face" : String) ≠
        "Expected Standard face, but got Valve face" :=
  mixed_format_aggregated_error [.standardFace, .valveFace]
    (by decide) (by decide)

/-- C3: with an unspecified format, `tryRead` tries the candidate formats in
declared order and returns the first format that parses the entire input;
with the Quake configuration (Valve before Standard), an untagged empty map
resolves as Valve, an untagged Valve-syntax map as Valve, and an untagged
Standard-syntax map as Standard. -/
theorem format_detection_first_success :
    (∀ (input : List BrushFaceKind) (fmts : List MapFormat) (fmt : MapFormat),
        tryRead input fmts = .ok fmt →
        ∃ pre post, fmts = pre ++ fmt :: post ∧
          (∀ g ∈ pre, parseWithFormat g input ≠ .ok ()) ∧
          parseWithFormat fmt input = .ok ())
    ∧ tryRead [] quakeFormatsToTry = .ok .Valve
    ∧ (∀ input : List BrushFaceKind, (∀ f ∈ input, f = .valveFace) →
        tryRead input quakeFormatsToTry = .ok .Valve)
    ∧ (∀ input : List BrushFaceKind, .standardFace ∈ input →
        (∀ f ∈ input, f = .standardFace) →
        tryRead input quakeFormatsToTry = .ok .Standard) := by
  refine ⟨fun input fmts fmt h => tryReadGo_ok h, rfl, ?_, ?_⟩
  · intro input hall
    have hok : parseWithFormat .Valve input = .ok () :=
      parseWithFormat_all_ok fun f hf => by rw [hall f hf]; rfl
    simp [tryRead, quakeFormatsToTry, tryReadGo, hok]
  · intro input hstd hall
    have hok : parseWithFormat .Standard input = .ok () :=
      parseWithFormat_all_ok fun f hf => by rw [hall f hf]; rfl
    simp [tryRead, quakeFormatsToTry, tryReadGo,
      parseWithFormat_valve_error hstd, hok]

/-- Witness for C3: the resolution of an untagged Valve map and an untagged
Standard map under the Quake candidate list. -/
theorem format_detection_first_success_witness :
    tryRead [.valveFace] quakeFormatsToTry = .ok .Valve
    ∧ tryRead [.standardFace] quakeFormatsToTry = .ok .Standard
    ∧ ∃ pre post, quakeFormatsToTry = pre ++ MapFormat.Valve :: post ∧
        (∀ g ∈ pre, parseWithFormat g [] ≠ .ok ()) ∧
        parseWithFormat .Valve [] = .ok () :=
  ⟨format_detection_first_success.2.2.1 [.valveFace] (by decide),
   format_detection_first_success.2.2.2 [.standardFace] (by decide) (by decide),
   format_detection_first_success.1 [] quakeFormatsToTry .Valve
     format_detection_first_success.2.1⟩

/-- C4: selection by line number respects the open-group scope on the test
tree: while the outer group (id 7, lines `[31, 50)`) is closed, every covered
line resolves to the group itself and never to a descendant; with the outer
group open, its direct children (brush 8, lines `[32, 38)`; inner group 9,
lines `[39, 49)`) are resolved by their own ranges, the open group itself is
excluded, and the nested closed inner group captures the lines of its
contents; with the inner group also open, only its contents (brush 10, lines
`[43, 48)`) resolve, in the innermost open scope.  Outside groups, brushes,
point entities and patches resolve by their own ranges and a brush entity
resolves to its brushes. -/
theorem select_by_line_group_scope :
    (∀ l : Nat, l < 50 → 31 ≤ l →
        selectNodesWithFilePosition [l] [] selectByLineFixture = [7])
    ∧ (∀ l : Nat, l < 50 → 31 ≤ l →
        selectNodesWithFilePosition [l] [7] selectByLineFixture =
          if 32 ≤ l ∧ l < 38 then [8]
          else if 39 ≤ l ∧ l < 49 then [9]
          else [])
    ∧ (∀ l : Nat, l < 50 → 31 ≤ l →
        selectNodesWithFilePosition [l] [7, 9] selectByLineFixture =
          if 43 ≤ l ∧ l < 48 then [10] else [])
    ∧ selectNodesWithFilePosition [0, 4, 12, 24, 32] [] selectByLineFixture
        = [1, 2, 5, 7]
    ∧ selectNodesWithFilePosition [20] [] selectByLineFixture = [5, 6]
    ∧ selectNodesWithFilePosition [24] [] selectByLineFixture = [5] := by
  exact ⟨by decide, by decide, by decide, by decide, by decide, by decide⟩

/-- Witness for C4: line 43 resolves to the outer group while it is closed,
to the inner group when only the outer group is open, and to the inner brush
when both groups are open. -/
theorem select_by_line_group_scope_witness :
    selectNodesWithFilePosition [43] [] selectByLineFixture = [7]
    ∧ selectNodesWithFilePosition [43] [7] selectByLineFixture =
        (if 32 ≤ 43 ∧ 43 < 38 then [8]
         else if 39 ≤ 43 ∧ 43 < 49 then [9]
         else [])
    ∧ selectNodesWithFilePosition [43] [7, 9] selectByLineFixture =
        (if 43 ≤ 43 ∧ 43 < 48 then [10] else []) :=
  ⟨select_by_line_group_scope.1 43 (by decide) (by decide),
   select_by_line_group_scope.2.1 43 (by decide) (by decide),
   select_by_line_group_scope.2.2.1 43 (by decide) (by decide)⟩

/-- C5: for an entity with a definition declaring default properties,
`setDefaultProperties` behaves per mode: keys not declared as defaults keep
their value in every mode; `SetExisting` introduces no absent key and
overwrites the declared-default keys the entity already has with the default
value; `SetMissing` never overwrites a present key and adds the absent
declared-default keys with the default value; `SetAll` ends with every
declared-default key present at its default value. -/
theorem set_default_properties_modes (mode : SetDefaultPropertyMode)
    (defaults props : List (String × String)) (k : String) :
    (lookupKey k defaults = none →
        lookupKey k (setDefaultProperties mode defaults props) =
          lookupKey k props)
    ∧ (mode = .SetExisting →
        hasProperty (setDefaultProperties mode defaults props) k =
          hasProperty props k)
    ∧ (∀ d : String, lookupKey k defaults = some d →
        (mode = .SetExisting → hasProperty props k = true →
            lookupKey k (setDefaultProperties mode defaults props) = some d)
        ∧ (mode = .SetMissing → hasProperty props k = true →
            lookupKey k (setDefaultProperties mode defaults props) =
              lookupKey k props)
        ∧ (mode = .SetMissing → hasProperty props k = false →
            lookupKey k (setDefaultProperties mode defaults props) = some d)
        ∧ (mode = .SetAll →
            lookupKey k (setDefaultProperties mode defaults props) = some d)) := by
  refine ⟨?_, ?_, ?_⟩
  · intro hnone
    have hadd : lookupKey k (if addsMissing mode then
        defaults.filter (fun d => !hasProperty props d.1) else []) = none := by
      by_cases hm : addsMissing mode = true
      · rw [if_pos hm]
        exact lookupKey_filter_none k _ defaults hnone
      · rw [if_neg hm]; rfl
    rw [setDefaultProperties, lookupKey_append, hadd, Option.or_none,
      lookupKey_map_applyDefault]
    cases lookupKey k props with
    | none => rfl
    | some v => simp [applyDefaultToProperty, hnone]
  · intro hmode
    subst hmode
    simp [setDefaultProperties, addsMissing, hasProperty, List.any_append,
      List.any_map, Function.comp_def, applyDefaultToProperty_fst]
  · intro d hd
    have hover : overwritesExisting mode = true → hasProperty props k = true →
        lookupKey k (setDefaultProperties mode defaults props) = some d := by
      intro hov hhas
      rw [hasProperty_iff_lookupKey] at hhas
      cases hv : lookupKey k props with
      | none => rw [hv] at hhas; exact absurd hhas (by simp)
      | some v =>
        rw [setDefaultProperties, lookupKey_append,
          lookupKey_map_applyDefault, hv]
        simp [applyDefaultToProperty, hd, hov]
    have hkeep : overwritesExisting mode = false → hasProperty props k = true →
        lookupKey k (setDefaultProperties mode defaults props) =
          lookupKey k props := by
      intro hov hhas
      rw [hasProperty_iff_lookupKey] at hhas
      cases hv : lookupKey k props with
      | none => rw [hv] at hhas; exact absurd hhas (by simp)
      | some v =>
        rw [setDefaultProperties, lookupKey_append,
          lookupKey_map_applyDefault, hv]
        simp [applyDefaultToProperty, hd, hov]
    have hmiss : addsMissing mode = true → hasProperty props k = false →
        lookupKey k (setDefaultProperties mode defaults props) = some d := by
      intro hadd hhas
      have hnone : lookupKey k props = none := by
        rw [hasProperty_iff_lookupKey] at hhas
        cases hv : lookupKey k props with
        | none => rfl
        | some v => rw [hv] at hhas; simp at hhas
      rw [setDefaultProperties, lookupKey_append,
        lookupKey_map_applyDefault, hnone, if_pos hadd,
        lookupKey_filter_not_has k props hhas defaults, hd]
      rfl
    refine ⟨fun hm hhas => hover (by rw [hm]; rfl) hhas,
            fun hm hhas => hkeep (by rw [hm]; rfl) hhas,
            fun hm hhas => hmiss (by rw [hm]; rfl) hhas,
            fun hm => ?_⟩
    by_cases hhas : hasProperty props k = true
    · exact hover (by rw [hm]; rfl) hhas
    · have hhas2 : hasProperty props k = false := by
        cases h2 : hasProperty props k with
        | false => rfl
        | true => exact absurd h2 hhas
      exact hmiss (by rw [hm]; rfl) hhas2

/-- Witness for C5: the fixture of the `resetDefaultProperties` test, with
the entity whose declared-default key carries a changed value.  `SetExisting`
overwrites it back to the default, `SetMissing` keeps the changed value and
adds the missing key, `SetAll` restores every declared default. -/
theorem set_default_properties_modes_witness :
    setDefaultProperties .SetExisting
        [("default_prop_a", "default_value_a"),
         ("default_prop_b", "default_value_b")]
        [("classname", "some_name"), ("default_prop_a", "some_other_value")]
      = [("classname", "some_name"), ("default_prop_a", "default_value_a")]
    ∧ setDefaultProperties .SetMissing
        [("default_prop_a", "default_value_a"),
         ("default_prop_b", "default_value_b")]
        [("classname", "some_name"), ("default_prop_a", "some_other_value")]
      = [("classname", "some_name"), ("default_prop_a", "some_other_value"),
         ("default_prop_b", "default_value_b")]
    ∧ setDefaultProperties .SetAll
        [("default_prop_a", "default_value_a"),
         ("default_prop_b", "default_value_b")]
        [("classname", "some_name"), ("default_prop_a", "some_other_value")]
      = [("classname", "some_name"), ("default_prop_a", "default_value_a"),
         ("default_prop_b", "default_value_b")]
    ∧ lookupKey "default_prop_a" (setDefaultProperties .SetAll
        [("default_prop_a", "default_value_a"),
         ("default_prop_b", "default_value_b")]
        [("classname", "some_name"), ("default_prop_a", "some_other_value")])
      = some "default_value_a" :=
  ⟨by decide, by decide, by decide,
   ((set_default_properties_modes .SetAll
       [("default_prop_a", "default_value_a"),
        ("default_prop_b", "default_value_b")]
       [("classname", "some_name"), ("default_prop_a", "some_other_value")]
       "default_prop_a").2.2 "default_value_a" (by decide)).2.2.2 rfl⟩

/-- C6: in a document with an original linked-group instance and its clone,
`canUpdateLinkedGroups` accepts a changed set containing the entity node of
one single instance (either of the two members) and rejects a changed set
spanning the entity nodes of both members of the family. -/
theorem can_update_linked_groups_family (fam m1 m2 : Nat) (h : m1 ≠ m2) :
    canUpdateLinkedGroups [⟨fam, m1⟩] = true
    ∧ canUpdateLinkedGroups [⟨fam, m2⟩] = true
    ∧ canUpdateLinkedGroups [⟨fam, m1⟩, ⟨fam, m2⟩] = false := by
  refine ⟨rfl, rfl, ?_⟩
  simp [canUpdateLinkedGroups, conflictingMembers, h]

/-- Witness for C6: family 1 with member instances 1 and 2. -/
theorem can_update_linked_groups_family_witness :
    canUpdateLinkedGroups [⟨1, 1⟩] = true
    ∧ canUpdateLinkedGroups [⟨1, 2⟩] = true
    ∧ canUpdateLinkedGroups [⟨1, 1⟩, ⟨1, 2⟩] = false :=
  can_update_linked_groups_family 1 1 2 (by decide)

/-- C7: on the "Brush Node Selection" tree (brushes nested in the default
layer, a custom layer, an entity, a group and a nested group),
`allSelectedBrushNodes` returns, for every selection, exactly the brush nodes
reachable from the selection (every selected brush plus all brush descendants
of every selected container, regardless of container type) with no node
appearing twice. -/
theorem all_selected_brush_nodes_flattening (sel : List Nat) :
    (allSelectedBrushNodes sel brushSelectionFixture).Nodup
    ∧ (∀ b : Nat, b ∈ allSelectedBrushNodes sel brushSelectionFixture ↔
        b ∈ reachableBrushes sel false brushSelectionFixture)
    ∧ allSelectedBrushNodes [6] brushSelectionFixture = [11, 9]
    ∧ allSelectedBrushNodes [4] brushSelectionFixture = [10]
    ∧ allSelectedBrushNodes [2] brushSelectionFixture = [8]
    ∧ allSelectedBrushNodes [6, 9] brushSelectionFixture = [11, 9]
    ∧ allSelectedBrushNodes [3, 8, 10] brushSelectionFixture = [3, 10, 8] := by
  refine ⟨List.nodup_dedup _, ?_, by decide, by decide, by decide, by decide,
    by decide⟩
  intro b
  rw [allSelectedBrushNodes, List.mem_dedup]
  exact mem_selectedBrushHits_iff_reachable sel brushSelectionFixture b

/-- C8: `hasAnySelectedBrushNodes` is true iff the flattened set computed by
`allSelectedBrushNodes` is non-empty; in particular it is true for a single
selected container that transitively contains a brush (brush entity 4, group
6) and false for the empty selection or a selected childless point entity
(node 5). -/
theorem has_any_selected_brush_nodes_iff (sel : List Nat) :
    (hasAnySelectedBrushNodes sel brushSelectionFixture = true ↔
      allSelectedBrushNodes sel brushSelectionFixture ≠ [])
    ∧ hasAnySelectedBrushNodes [4] brushSelectionFixture = true
    ∧ hasAnySelectedBrushNodes [6] brushSelectionFixture = true
    ∧ hasAnySelectedBrushNodes [5] brushSelectionFixture = false
    ∧ hasAnySelectedBrushNodes [] brushSelectionFixture = false := by
  refine ⟨?_, by decide, by decide, by decide, by decide⟩
  rw [hasAnySelectedBrushNodes, allSelectedBrushNodes]
  simp [List.dedup_eq_nil]

/-- C9: moving an external texture collection up or down fails with a named
`AssetException` whenever the name does not refer to a known external
collection or the collection is already at the respective boundary (first
position for up, last position for down); otherwise the collection is
swapped with its neighbor and nothing else changes. -/
theorem move_external_texture_collection_spec (s : TextureManagerState)
    (name : String) :
    (lookupKey name s.externalCollectionsByName = none →
        moveExternalTextureCollectionUp s name =
          .error ("Unknown external texture collection: " ++ name)
        ∧ moveExternalTextureCollectionDown s name =
          .error ("Unknown external texture collection: " ++ name))
    ∧ (∀ c : TextureCollection,
        lookupKey name s.externalCollectionsByName = some c →
        (indexOfCollection s.externalCollections c = 0 →
            moveExternalTextureCollectionUp s name =
              .error "Could not move texture collection")
        ∧ (indexOfCollection s.externalCollections c =
              s.externalCollections.length - 1 →
            moveExternalTextureCollectionDown s name =
              .error "Could not move texture collection")
        ∧ ((∃ x ∈ s.externalCollections, x.cid = c.cid) →
            indexOfCollection s.externalCollections c ≠ 0 →
            ∃ s2, moveExternalTextureCollectionUp s name = .ok s2
              ∧ s2.externalCollectionsByName = s.externalCollectionsByName
              ∧ s2.externalCollections.length = s.externalCollections.length
              ∧ s2.externalCollections[indexOfCollection
                    s.externalCollections c - 1]?
                  = s.externalCollections[indexOfCollection
                    s.externalCollections c]?
              ∧ s2.externalCollections[indexOfCollection
                    s.externalCollections c]?
                  = s.externalCollections[indexOfCollection
                    s.externalCollections c - 1]?
              ∧ ∀ m, m ≠ indexOfCollection s.externalCollections c - 1 →
                  m ≠ indexOfCollection s.externalCollections c →
                  s2.externalCollections[m]? = s.externalCollections[m]?)
        ∧ ((∃ x ∈ s.externalCollections, x.cid = c.cid) →
            indexOfCollection s.externalCollections c ≠
              s.externalCollections.length - 1 →
            ∃ s2, moveExternalTextureCollectionDown s name = .ok s2
              ∧ s2.externalCollectionsByName = s.externalCollectionsByName
              ∧ s2.externalCollections.length = s.externalCollections.length
              ∧ s2.externalCollections[indexOfCollection
                    s.externalCollections c + 1]?
                  = s.externalCollections[indexOfCollection
                    s.externalCollections c]?
              ∧ s2.externalCollections[indexOfCollection
                    s.externalCollections c]?
                  = s.externalCollections[indexOfCollection
                    s.externalCollections c + 1]?
              ∧ ∀ m, m ≠ indexOfCollection s.externalCollections c + 1 →
                  m ≠ indexOfCollection s.externalCollections c →
                  s2.externalCollections[m]? = s.externalCollections[m]?)) := by
  constructor
  · intro hnone
    constructor
    · unfold moveExternalTextureCollectionUp
      simp only [hnone]
    · unfold moveExternalTextureCollectionDown
      simp only [hnone]
  · intro c hc
    have eUp : moveExternalTextureCollectionUp s name =
        (if indexOfCollection s.externalCollections c = 0 then
          .error "Could not move texture collection"
        else
          .ok { s with externalCollections :=
            (swapNeighbors s.externalCollections
              (indexOfCollection s.externalCollections c - 1)
              (indexOfCollection s.externalCollections c)) }) := by
      unfold moveExternalTextureCollectionUp
      simp only [hc]
    have eDown : moveExternalTextureCollectionDown s name =
        (if indexOfCollection s.externalCollections c =
            s.externalCollections.length - 1 then
          .error "Could not move texture collection"
        else
          .ok { s with externalCollections :=
            (swapNeighbors s.externalCollections
              (indexOfCollection s.externalCollections c + 1)
              (indexOfCollection s.externalCollections c)) }) := by
      unfold moveExternalTextureCollectionDown
      simp only [hc]
    refine ⟨?_, ?_, ?_, ?_⟩
    · intro h0
      rw [eUp, if_pos h0]
    · intro hlast
      rw [eDown, if_pos hlast]
    · intro hmem hne
      have hi : indexOfCollection s.externalCollections c <
          s.externalCollections.length :=
        indexOfCollection_lt_length s.externalCollections c hmem
      have hi1 : indexOfCollection s.externalCollections c - 1 <
          s.externalCollections.length := by omega
      have hij : indexOfCollection s.externalCollections c - 1 ≠
          indexOfCollection s.externalCollections c := by omega
      obtain ⟨hlen, hl, hr, hrest⟩ :=
        swapNeighbors_spec s.externalCollections
          (indexOfCollection s.externalCollections c - 1)
          (indexOfCollection s.externalCollections c) hi1 hi hij
      refine ⟨{ s with externalCollections :=
          (swapNeighbors s.externalCollections
            (indexOfCollection s.externalCollections c - 1)
            (indexOfCollection s.externalCollections c)) },
        by rw [eUp, if_neg hne], rfl, hlen, hl, hr, hrest⟩
    · intro hmem hne
      have hi : indexOfCollection s.externalCollections c <
          s.externalCollections.length :=
        indexOfCollection_lt_length s.externalCollections c hmem
      have hi1 : indexOfCollection s.externalCollections c + 1 <
          s.externalCollections.length := by omega
      have hij : indexOfCollection s.externalCollections c + 1 ≠
          indexOfCollection s.externalCollections c := by omega
      obtain ⟨hlen, hl, hr, hrest⟩ :=
        swapNeighbors_spec s.externalCollections
          (indexOfCollection s.externalCollections c + 1)
          (indexOfCollection s.externalCollections c) hi1 hi hij
      refine ⟨{ s with externalCollections :=
          (swapNeighbors s.externalCollections
            (indexOfCollection s.externalCollections c + 1)
            (indexOfCollection s.externalCollections c)) },
        by rw [eDown, if_neg hne], rfl, hlen, hl, hr, hrest⟩

/-- Witness for C9: a manager holding collections "a" (id 1) and "b" (id 2).
An unknown name and the two boundaries raise named failures; moving "b" up
succeeds and swaps it with "a". -/
theorem move_external_texture_collection_spec_witness :
    moveExternalTextureCollectionUp
        ⟨[⟨1, "a"⟩, ⟨2, "b"⟩], [("a", ⟨1, "a"⟩), ("b", ⟨2, "b"⟩)]⟩ "zz"
      = .error ("Unknown external texture collection: " ++ "zz")
    ∧ moveExternalTextureCollectionUp
        ⟨[⟨1, "a"⟩, ⟨2, "b"⟩], [("a", ⟨1, "a"⟩), ("b", ⟨2, "b"⟩)]⟩ "a"
      = .error "Could not move texture collection"
    ∧ moveExternalTextureCollectionDown
        ⟨[⟨1, "a"⟩, ⟨2, "b"⟩], [("a", ⟨1, "a"⟩), ("b", ⟨2, "b"⟩)]⟩ "b"
      = .error "Could not move texture collection"
    ∧ ∃ s2, moveExternalTextureCollectionUp
        ⟨[⟨1, "a"⟩, ⟨2, "b"⟩], [("a", ⟨1, "a"⟩), ("b", ⟨2, "b"⟩)]⟩ "b"
        = .ok s2
      ∧ s2.externalCollectionsByName =
          TextureManagerState.externalCollectionsByName
            ⟨[⟨1, "a"⟩, ⟨2, "b"⟩], [("a", ⟨1, "a"⟩), ("b", ⟨2, "b"⟩)]⟩
      ∧ s2.externalCollections.length =
          (TextureManagerState.externalCollections
            ⟨[⟨1, "a"⟩, ⟨2, "b"⟩], [("a", ⟨1, "a"⟩), ("b", ⟨2, "b"⟩)]⟩).length
      ∧ s2.externalCollections[indexOfCollection
            (TextureManagerState.externalCollections
              ⟨[⟨1, "a"⟩, ⟨2, "b"⟩], [("a", ⟨1, "a"⟩), ("b", ⟨2, "b"⟩)]⟩)
            ⟨2, "b"⟩ - 1]?
          = (TextureManagerState.externalCollections
              ⟨[⟨1, "a"⟩, ⟨2, "b"⟩], [("a", ⟨1, "a"⟩), ("b", ⟨2, "b"⟩)]⟩)[
              indexOfCollection
                (TextureManagerState.externalCollections
                  ⟨[⟨1, "a"⟩, ⟨2, "b"⟩], [("a", ⟨1, "a"⟩), ("b", ⟨2, "b"⟩)]⟩)
                ⟨2, "b"⟩]?
      ∧ s2.externalCollections[indexOfCollection
            (TextureManagerState.externalCollections
              ⟨[⟨1, "a"⟩, ⟨2, "b"⟩], [("a", ⟨1, "a"⟩), ("b", ⟨2, "b"⟩)]⟩)
            ⟨2, "b"⟩]?
          = (TextureManagerState.externalCollections
              ⟨[⟨1, "a"⟩, ⟨2, "b"⟩], [("a", ⟨1, "a"⟩), ("b", ⟨2, "b"⟩)]⟩)[
              indexOfCollection
                (TextureManagerState.externalCollections
                  ⟨[⟨1, "a"⟩, ⟨2, "b"⟩], [("a", ⟨1, "a"⟩), ("b", ⟨2, "b"⟩)]⟩)
                ⟨2, "b"⟩ - 1]?
      ∧ ∀ m, m ≠ indexOfCollection
            (TextureManagerState.externalCollections
              ⟨[⟨1, "a"⟩, ⟨2, "b"⟩], [("a", ⟨1, "a"⟩), ("b", ⟨2, "b"⟩)]⟩)
            ⟨2, "b"⟩ - 1 →
          m ≠ indexOfCollection
            (TextureManagerState.externalCollections
              ⟨[⟨1, "a"⟩, ⟨2, "b"⟩], [("a", ⟨1, "a"⟩), ("b", ⟨2, "b"⟩)]⟩)
            ⟨2, "b"⟩ →
          s2.externalCollections[m]? =
            (TextureManagerState.externalCollections
              ⟨[⟨1, "a"⟩, ⟨2, "b"⟩], [("a", ⟨1, "a"⟩), ("b", ⟨2, "b"⟩)]⟩)[m]? :=
  ⟨(move_external_texture_collection_spec
      ⟨[⟨1, "a"⟩, ⟨2, "b"⟩], [("a", ⟨1, "a"⟩), ("b", ⟨2, "b"⟩)]⟩ "zz").1
      rfl |>.1,
   ((move_external_texture_collection_spec
      ⟨[⟨1, "a"⟩, ⟨2, "b"⟩], [("a", ⟨1, "a"⟩), ("b", ⟨2, "b"⟩)]⟩ "a").2
      ⟨1, "a"⟩ rfl).1 rfl,
   ((move_external_texture_collection_spec
      ⟨[⟨1, "a"⟩, ⟨2, "b"⟩], [("a", ⟨1, "a"⟩), ("b", ⟨2, "b"⟩)]⟩ "b").2
      ⟨2, "b"⟩ rfl).2.1 rfl,
   ((move_external_texture_collection_spec
      ⟨[⟨1, "a"⟩, ⟨2, "b"⟩], [("a", ⟨1, "a"⟩), ("b", ⟨2, "b"⟩)]⟩ "b").2
      ⟨2, "b"⟩ rfl).2.2.1 (by decide) (by decide)⟩

/-- C10: when loading an external texture collection fails,
`addExternalTextureCollection` returns false but does not leave the manager
unchanged: it appends a placeholder collection under the requested name to
both the external collection list and the by-name map, so the name appears in
`externalCollectionNames` and a later `doAddTextureCollection` under that
name is a no-op. -/
theorem add_external_texture_collection_placeholder
    (load : String → Option TextureCollection) (dummyId : Nat)
    (s : TextureManagerState) (name : String) (b : Bool)
    (s2 : TextureManagerState)
    (hload : load name = none)
    (habsent : lookupKey name s.externalCollectionsByName = none)
    (h : addExternalTextureCollection load dummyId s name = (b, s2)) :
    b = false
    ∧ s2.externalCollections = s.externalCollections ++ [⟨dummyId, name⟩]
    ∧ s2.externalCollectionsByName =
        s.externalCollectionsByName ++ [(name, ⟨dummyId, name⟩)]
    ∧ name ∈ externalCollectionNames s2
    ∧ lookupKey name s2.externalCollectionsByName = some ⟨dummyId, name⟩
    ∧ ∀ load2 : String → Option TextureCollection,
        doAddTextureCollection load2 name s2.externalCollections
          s2.externalCollectionsByName =
          .ok (s2.externalCollections, s2.externalCollectionsByName) := by
  have hdo : doAddTextureCollection load name s.externalCollections
      s.externalCollectionsByName = .error () := by
    rw [doAddTextureCollection, if_pos (by rw [habsent]; rfl), hload]
  have hmi : mapInsert s.externalCollectionsByName name ⟨dummyId, name⟩ =
      s.externalCollectionsByName ++ [(name, ⟨dummyId, name⟩)] := by
    rw [mapInsert, if_neg (by rw [habsent]; simp)]
  have hlk : lookupKey name
      (mapInsert s.externalCollectionsByName name ⟨dummyId, name⟩) =
      some ⟨dummyId, name⟩ := by
    rw [hmi, lookupKey_append, habsent]
    simp [lookupKey]
  simp only [addExternalTextureCollection, hdo] at h
  injection h with hb hs2
  subst hb
  subst hs2
  refine ⟨rfl, rfl, hmi, ?_, hlk, ?_⟩
  · show name ∈ externalCollectionNames
      ⟨s.externalCollections ++ [⟨dummyId, name⟩],
       mapInsert s.externalCollectionsByName name ⟨dummyId, name⟩⟩
    simp [externalCollectionNames]
  · intro load2
    show doAddTextureCollection load2 name
        (s.externalCollections ++ [⟨dummyId, name⟩])
        (mapInsert s.externalCollectionsByName name ⟨dummyId, name⟩) =
      .ok (s.externalCollections ++ [⟨dummyId, name⟩],
        mapInsert s.externalCollectionsByName name ⟨dummyId, name⟩)
    rw [doAddTextureCollection, if_neg (by rw [hlk]; simp)]

/-- Witness for C10: adding a collection named "tex" to an empty manager with
a failing loader. -/
theorem add_external_texture_collection_placeholder_witness :
    false = false
    ∧ ([⟨7, "tex"⟩] : List TextureCollection) = [] ++ [⟨7, "tex"⟩]
    ∧ ([("tex", (⟨7, "tex"⟩ : TextureCollection))]
        : List (String × TextureCollection)) = [] ++ [("tex", ⟨7, "tex"⟩)]
    ∧ "tex" ∈ externalCollectionNames ⟨[⟨7, "tex"⟩], [("tex", ⟨7, "tex"⟩)]⟩
    ∧ lookupKey "tex" ([("tex", (⟨7, "tex"⟩ : TextureCollection))])
        = some ⟨7, "tex"⟩
    ∧ ∀ load2 : String → Option TextureCollection,
        doAddTextureCollection load2 "tex" [⟨7, "tex"⟩]
          [("tex", ⟨7, "tex"⟩)] =
          .ok ([⟨7, "tex"⟩], [("tex", ⟨7, "tex"⟩)]) :=
  add_external_texture_collection_placeholder (fun _ => none) 7 ⟨[], []⟩
    "tex" false ⟨[⟨7, "tex"⟩], [("tex", ⟨7, "tex"⟩)]⟩ rfl rfl (by decide)
